import Mathlib

/-!
Verification of the `velour/bridge` event relay engine.

This file gives a shallow embedding of the relay engine in
`src/bridge/bridge.go` (the correlation log, the fan-out broadcast,
the mux/poll/close machinery and the Bridge's direct send path) and of
the Telegram channel adapter's event mapping in
`src/telegram/channel.go`, together with theorems settling the
specification claims about them.

Channels are identified by a `ChannelId` (`Nat`), standing for the Go
interface identity used in `ch != exclude` and `c.to == origin`
comparisons.  The behaviour of a backend channel (what its
`Send`/`SendAs`/`Reply`/`ReplyAs`/`Edit`/`Delete` calls return) is a
`Behavior` record of pure oracles; an `Env` assigns a behaviour to
every channel id.  Fallible Go calls return `Except Err`.  The
concurrent fan-out of `sendMessage` (every goroutine always runs; the
errgroup retains one error) is determinised by list order: the trace
of issued backend calls is the per-channel call list, and the first
error in channel order is the error `group.Wait` reports.
-/

/-- Identity of a `chat.Channel` value (Go interface identity). -/
abbrev ChannelId := Nat

/-- `chat.User`, with the fields the bridged code reads. -/
structure ChatUser where
  id : String
  nick : String
  fullName : String
  displayName : String
  photoURL : String
deriving Repr, DecidableEq, Inhabited

/-- `chat.Message`: an identifier, the sending user, and the text.
`fromUser` embeds the Go field `From`. -/
structure ChatMessage where
  id : String
  fromUser : ChatUser
  text : String
deriving Repr, DecidableEq, Inhabited

/-- Errors flowing through the relay: `io.EOF`, the two context
errors, and any other error described by its message string. -/
inductive Err where
  | eof
  | canceled
  | deadlineExceeded
  | other (msg : String)
deriving Repr, DecidableEq

/-- `err.Error()` for the errors above (`io.EOF.Error() = "EOF"`). -/
def errString : Err → String
  | Err.eof => "EOF"
  | Err.canceled => "context canceled"
  | Err.deadlineExceeded => "context deadline exceeded"
  | Err.other s => s

/-- The `chat` event union dispatched on by `relay`. -/
inductive Event where
  | message (m : ChatMessage)
  | reply (replyTo : ChatMessage) (rep : ChatMessage)
  | edit (id : String) (newID : String) (text : String)
  | delete (id : String)
  | join (who : ChatUser)
  | leave (who : ChatUser)
  | rename (fromU : ChatUser) (toU : ChatUser)
deriving Repr, DecidableEq

/-- A backend call issued by the bridge to one channel. -/
inductive Call where
  | send (text : String)
  | sendAs (u : ChatUser) (text : String)
  | reply (replyTo : ChatMessage) (text : String)
  | replyAs (u : ChatUser) (replyTo : ChatMessage) (text : String)
  | edit (id : String) (text : String)
  | delete (id : String)
deriving Repr, DecidableEq

/-- The trace of backend calls of one relay operation, in channel
order: which call was issued on which channel. -/
abbrev Trace := List (ChannelId × Call)

/-- The observable behaviour of one backend channel: what each of its
send-style methods returns.  `chanName`/`serviceName` model
`Name()`/`ServiceName()`. -/
structure Behavior where
  sendR : String → Except Err ChatMessage
  sendAsR : ChatUser → String → Except Err ChatMessage
  replyR : ChatMessage → String → Except Err ChatMessage
  replyAsR : ChatUser → ChatMessage → String → Except Err ChatMessage
  editR : String → String → Except Err String
  deleteR : String → Except Err Unit
  chanName : String
  serviceName : String

/-- Assignment of behaviours to channel identities. -/
abbrev Env := ChannelId → Behavior

/-- The bridge's `message` struct: a copy of a relayed message on one
target channel. -/
structure BMessage where
  toCh : ChannelId
  msg : ChatMessage
deriving Repr, DecidableEq

/-- The bridge's `logEntry` struct: one correlation-log entry. -/
structure LogEntry where
  origin : ChannelId
  copies : List BMessage
deriving Repr, DecidableEq

/-- The mutable state of a `Bridge`: its own channel identity, the
bridged channels, the local id counter, and the correlation log. -/
structure BridgeState where
  self : ChannelId
  channels : List ChannelId
  nextID : Int
  log : List LogEntry
deriving Repr, DecidableEq

/-- `const maxHistory = 500`. -/
def maxHistory : Nat := 500

/-- `New`: a fresh bridge over the given channels (counter `0`, empty
log). -/
def newBridge (self : ChannelId) (channels : List ChannelId) : BridgeState :=
  { self := self, channels := channels, nextID := 0, log := [] }

/-- `logMessage`: append an entry, then truncate the log to its first
`maxHistory` entries when its length exceeds `maxHistory`. -/
def logMessage (b : BridgeState) (entry : LogEntry) : BridgeState :=
  let l := b.log ++ [entry]
  { b with log := if maxHistory < l.length then l.take maxHistory else l }

/-- `allChannelsExcept`: every bridged channel other than `exclude`. -/
def allChannelsExcept (b : BridgeState) (exclude : ChannelId) : List ChannelId :=
  b.channels.filter (fun ch => ch != exclude)

/-- The entry search of `makeFindMessage`: the first log entry holding
a copy on `origin` whose message id is `id`. -/
def findEntry (log : List LogEntry) (origin : ChannelId) (id : String) : Option LogEntry :=
  log.find? (fun e => e.copies.any (fun c => c.toCh == origin && c.msg.id == id))

/-- `makeFindMessage`: resolve the entry for (`origin`, `id`), then map
each channel to its first recorded copy in that entry, if any. -/
def makeFindMessage (b : BridgeState) (origin : ChannelId) (id : String) :
    ChannelId → Option ChatMessage :=
  fun ch =>
    match findEntry b.log origin id with
    | none => none
    | some entry => (entry.copies.find? (fun c => c.toCh == ch)).map (fun c => c.msg)

/-- The method dispatch inside `sendMessage`'s per-channel goroutine:
which call is issued, given the optional `sendAs` user and the
resolved reply target. -/
def sendCall (sendAs : Option ChatUser) (findMessage : ChannelId → Option ChatMessage)
    (text : String) (ch : ChannelId) : Call :=
  match findMessage ch, sendAs with
  | some replyTo, none => Call.reply replyTo text
  | some replyTo, some u => Call.replyAs u replyTo text
  | none, none => Call.send text
  | none, some u => Call.sendAs u text

/-- What the dispatched call of `sendCall` returns under `env`. -/
def sendResult (env : Env) (sendAs : Option ChatUser)
    (findMessage : ChannelId → Option ChatMessage) (text : String) (ch : ChannelId) :
    Except Err ChatMessage :=
  match findMessage ch, sendAs with
  | some replyTo, none => (env ch).replyR replyTo text
  | some replyTo, some u => (env ch).replyAsR u replyTo text
  | none, none => (env ch).sendR text
  | none, some u => (env ch).sendAsR u text

/-- `errgroup.Wait` plus the `messages[i] = ...` writes of
`sendMessage`: all per-channel results, or the first error in channel
order. -/
def collectSends : List (ChannelId × Except Err ChatMessage) → Except Err (List BMessage)
  | [] => Except.ok []
  | (_, Except.error e) :: _ => Except.error e
  | (ch, Except.ok m) :: rest => (collectSends rest).map (fun ms => ⟨ch, m⟩ :: ms)

/-- `sendMessage`: issue one send-style call per channel (`nil`
`findMessage` becomes the constant-`nil` function), returning the call
trace and either every returned message or the retained error. -/
def sendMessage (env : Env) (channels : List ChannelId) (sendAs : Option ChatUser)
    (findMessage? : Option (ChannelId → Option ChatMessage)) (text : String) :
    Trace × Except Err (List BMessage) :=
  let findMessage := findMessage?.getD (fun _ => none)
  (channels.map (fun ch => (ch, sendCall sendAs findMessage text ch)),
   collectSends (channels.map (fun ch => (ch, sendResult env sendAs findMessage text ch))))

/-- `errgroup.Wait` for `editMessage`/`deleteMessage`: first error in
order among the per-channel results. -/
def firstErr : List (Except Err Unit) → Except Err Unit
  | [] => Except.ok ()
  | Except.error e :: _ => Except.error e
  | Except.ok _ :: rest => firstErr rest

/-- `editMessage`: for each channel with a resolved copy, call `Edit`
with that copy's id; a channel without a copy is skipped.  A failed
`Edit` is wrapped in a "failed to send edit" error.  The returned id
of a successful `Edit` is written only into the discarded copy that
`makeFindMessage` returned, so no state changes. -/
def editMessage (env : Env) (channels : List ChannelId)
    (findMessage : ChannelId → Option ChatMessage) (text : String) :
    Trace × Except Err Unit :=
  let acts := channels.filterMap (fun ch => (findMessage ch).map (fun m => (ch, m)))
  (acts.map (fun a => (a.1, Call.edit a.2.id text)),
   firstErr (acts.map (fun a =>
     match (env a.1).editR a.2.id text with
     | Except.error e => Except.error (Err.other
         ("failed to send edit to " ++ (env a.1).chanName ++ " on "
           ++ (env a.1).serviceName ++ ": " ++ errString e))
     | Except.ok _ => Except.ok ())))

/-- `deleteMessage`: for each channel with a resolved copy, call
`Delete` with that copy's id; a channel without a copy is skipped. -/
def deleteMessage (env : Env) (channels : List ChannelId)
    (findMessage : ChannelId → Option ChatMessage) :
    Trace × Except Err Unit :=
  let acts := channels.filterMap (fun ch => (findMessage ch).map (fun m => (ch, m)))
  (acts.map (fun a => (a.1, Call.delete a.2.id)),
   firstErr (acts.map (fun a =>
     match (env a.1).deleteR a.2.id with
     | Except.error e => Except.error (Err.other
         ("failed to send delete to " ++ (env a.1).chanName ++ " on "
           ++ (env a.1).serviceName ++ ": " ++ errString e))
     | Except.ok _ => Except.ok ())))

/-- Modelled from the spec: the `velour/chat` package's `User.Name`
method is not under `src/`; a display name for the user, used only in
the synthesized Join/Leave/Rename informational texts. -/
def ChatUser.name (u : ChatUser) : String :=
  if u.displayName == "" then (if u.fullName == "" then u.nick else u.fullName)
  else u.displayName

/-- `relay`: dispatch one origin-tagged event, returning the trace of
backend calls and either the updated bridge state or the error that
aborted the relay. -/
def relay (env : Env) (b : BridgeState) (origin : ChannelId) (what : Event) :
    Trace × Except Err BridgeState :=
  let origName := (env origin).chanName ++ " on " ++ (env origin).serviceName
  match what with
  | Event.message m =>
    let sr := sendMessage env (allChannelsExcept b origin) (some m.fromUser) none m.text
    match sr.2 with
    | Except.error e => (sr.1, Except.error e)
    | Except.ok msgs =>
      (sr.1, Except.ok (logMessage b ⟨origin, msgs ++ [⟨origin, m⟩]⟩))
  | Event.reply replyTo rep =>
    let findMessage := makeFindMessage b origin replyTo.id
    let sr := sendMessage env (allChannelsExcept b origin) none (some findMessage) rep.text
    match sr.2 with
    | Except.error e => (sr.1, Except.error e)
    | Except.ok msgs =>
      (sr.1, Except.ok (logMessage b ⟨b.self, msgs ++ [⟨origin, rep⟩]⟩))
  | Event.delete id =>
    let findMessage := makeFindMessage b origin id
    let dr := deleteMessage env (allChannelsExcept b origin) findMessage
    (dr.1, dr.2.map (fun _ => b))
  | Event.edit id _ text =>
    let findMessage := makeFindMessage b origin id
    let er := editMessage env (allChannelsExcept b origin) findMessage text
    (er.1, er.2.map (fun _ => b))
  | Event.join who =>
    let sr := sendMessage env (allChannelsExcept b origin) none none
      (who.name ++ " joined " ++ origName)
    (sr.1, sr.2.map (fun _ => b))
  | Event.leave who =>
    let sr := sendMessage env (allChannelsExcept b origin) none none
      (who.name ++ " left " ++ origName)
    (sr.1, sr.2.map (fun _ => b))
  | Event.rename fromU toU =>
    if fromU.name == toU.name then ([], Except.ok b)
    else
      let sr := sendMessage env (allChannelsExcept b origin) none none
        (fromU.name ++ " renamed to " ++ toU.name ++ " in " ++ origName)
      (sr.1, sr.2.map (fun _ => b))

/-- One input the `mux` loop can react to: the `closed` signal, a
reported poll error, or a queued origin-tagged event. -/
inductive MuxInput where
  | closeReq
  | pollErr (e : Err)
  | ev (origin : ChannelId) (what : Event)

/-- The state owned by the `mux` loop: the bridge state, the pending
events of the bridge's own receive queue, and the terminal outcome
(`none` while running; `some none` after a clean close; `some (some e)`
after the terminal error `e` was published to `closeError`). -/
structure MuxState where
  bridge : BridgeState
  recvQueue : List Event
  terminal : Option (Option Err)
deriving DecidableEq

/-- The mux state right after `New`. -/
def initialMux (b : BridgeState) : MuxState :=
  { bridge := b, recvQueue := [], terminal := none }

/-- One iteration of the `mux` loop (after termination the loop has
returned, so further inputs do nothing and issue no calls). -/
def muxStep (env : Env) (s : MuxState) (inp : MuxInput) : MuxState × Trace :=
  match s.terminal with
  | some _ => (s, [])
  | none =>
    match inp with
    | MuxInput.closeReq => ({ s with terminal := some none }, [])
    | MuxInput.pollErr e => ({ s with terminal := some (some e) }, [])
    | MuxInput.ev origin what =>
      match relay env s.bridge origin what with
      | (tr, Except.error e) => ({ s with terminal := some (some e) }, tr)
      | (tr, Except.ok b2) =>
        ({ s with bridge := b2, recvQueue := s.recvQueue ++ [what] }, tr)

/-- Run the `mux` loop over a sequence of inputs, collecting the
backend calls made along the way. -/
def muxRun (env : Env) (s : MuxState) : List MuxInput → MuxState × Trace
  | [] => (s, [])
  | inp :: rest =>
    let st := muxStep env s inp
    let rt := muxRun env st.1 rest
    (rt.1, st.2 ++ rt.2)

/-- The rewrite `Close` applies to the value received from
`closeError` (`nil` on a clean close): `io.EOF` becomes the distinct
error `unexpected EOF`. -/
def closeReturn (err : Option Err) : Option Err :=
  match err with
  | some e => if e = Err.eof then some (Err.other "unexpected EOF") else some e
  | none => none

/-- What `Bridge.Close` returns once the mux loop has terminated. -/
def bridgeCloseResult (s : MuxState) : Option Err :=
  closeReturn (match s.terminal with
    | some (some e) => some e
    | _ => none)

/-- Whether an optional error is `io.EOF`. -/
def isEOFErr : Option Err → Bool
  | some Err.eof => true
  | _ => false

/-- What one iteration of a `poll` goroutine does with the result of
`Receive`: exit silently on a context error, report any other error
and exit, or publish the event and continue. -/
inductive PollAction where
  | exitSilent
  | report (e : Err)
  | publish (what : Event)
deriving Repr, DecidableEq

/-- The `switch` in `poll` classifying one `Receive` result. -/
def pollStep (r : Except Err Event) : PollAction :=
  match r with
  | Except.error e =>
    if e = Err.canceled ∨ e = Err.deadlineExceeded then PollAction.exitSilent
    else PollAction.report e
  | Except.ok what => PollAction.publish what

/-- The non-blocking send to the capacity-1 `pollError` channel: the
first reported error is retained, later reports are dropped. -/
def reportFirst (pollError : Option Err) (e : Err) : Option Err :=
  match pollError with
  | none => some e
  | some e0 => some e0

/-- Run one poller over the successive results of its channel's
`Receive`: the events it publishes, and how it exits (`none`: still
polling; `some none`: silent exit; `some (some e)`: exit reporting
`e`). -/
def pollRun : List (Except Err Event) → List Event × Option (Option Err)
  | [] => ([], none)
  | r :: rest =>
    match pollStep r with
    | PollAction.exitSilent => ([], some none)
    | PollAction.report e => ([], some (some e))
    | PollAction.publish what =>
      let p := pollRun rest
      (what :: p.1, p.2)

/-- `me`: the user the Bridge attributes its own messages to. -/
def meUser : ChatUser :=
  { id := "bridge", nick := "bridge", fullName := "bridge",
    displayName := "bridge", photoURL := "" }

/-- Two's-complement wrap-around of Go's 64-bit `int`. -/
def wrap64 (n : Int) : Int := (n + 2 ^ 63) % 2 ^ 64 - 2 ^ 63

/-- `nextID`: increment the counter (a wrapping 64-bit `int`) and
return the decimal string of its previous value; `nextID - 1` in the
source also wraps, so the returned value is always the pre-increment
counter. -/
def bridgeNextID (b : BridgeState) : String × BridgeState :=
  (Int.repr b.nextID, { b with nextID := wrap64 (b.nextID + 1) })

/-- `Bridge.Send`: broadcast to all bridged channels, then synthesize
a locally-identified message and append a log entry with the Bridge
itself as origin. -/
def bridgeSend (env : Env) (b : BridgeState) (text : String) :
    Trace × Except Err (ChatMessage × BridgeState) :=
  let sr := sendMessage env b.channels none none text
  match sr.2 with
  | Except.error e => (sr.1, Except.error e)
  | Except.ok msgs =>
    let idb := bridgeNextID b
    let msg : ChatMessage := { id := idb.1, fromUser := meUser, text := text }
    (sr.1, Except.ok (msg, logMessage idb.2 ⟨b.self, msgs ++ [⟨b.self, msg⟩]⟩))

/-- `Bridge.SendAs`: like `Send`, broadcasting on behalf of the given
user. -/
def bridgeSendAs (env : Env) (b : BridgeState) (sendAs : ChatUser) (text : String) :
    Trace × Except Err (ChatMessage × BridgeState) :=
  let sr := sendMessage env b.channels (some sendAs) none text
  match sr.2 with
  | Except.error e => (sr.1, Except.error e)
  | Except.ok msgs =>
    let idb := bridgeNextID b
    let msg : ChatMessage := { id := idb.1, fromUser := meUser, text := text }
    (sr.1, Except.ok (msg, logMessage idb.2 ⟨b.self, msgs ++ [⟨b.self, msg⟩]⟩))

/-- `Bridge.Reply`: resolve the reply target against the log with the
Bridge itself as origin, then broadcast to all bridged channels. -/
def bridgeReply (env : Env) (b : BridgeState) (replyTo : ChatMessage) (text : String) :
    Trace × Except Err (ChatMessage × BridgeState) :=
  let findMessage := makeFindMessage b b.self replyTo.id
  let sr := sendMessage env b.channels none (some findMessage) text
  match sr.2 with
  | Except.error e => (sr.1, Except.error e)
  | Except.ok msgs =>
    let idb := bridgeNextID b
    let msg : ChatMessage := { id := idb.1, fromUser := meUser, text := text }
    (sr.1, Except.ok (msg, logMessage idb.2 ⟨b.self, msgs ++ [⟨b.self, msg⟩]⟩))

/-- `Bridge.ReplyAs`: `Reply` on behalf of the given user. -/
def bridgeReplyAs (env : Env) (b : BridgeState) (sendAs : ChatUser)
    (replyTo : ChatMessage) (text : String) :
    Trace × Except Err (ChatMessage × BridgeState) :=
  let findMessage := makeFindMessage b b.self replyTo.id
  let sr := sendMessage env b.channels (some sendAs) (some findMessage) text
  match sr.2 with
  | Except.error e => (sr.1, Except.error e)
  | Except.ok msgs =>
    let idb := bridgeNextID b
    let msg : ChatMessage := { id := idb.1, fromUser := meUser, text := text }
    (sr.1, Except.ok (msg, logMessage idb.2 ⟨b.self, msgs ++ [⟨b.self, msg⟩]⟩))

/-- One direct send-style call on the Bridge. -/
inductive DirectCall where
  | send (text : String)
  | sendAs (u : ChatUser) (text : String)
  | reply (replyTo : ChatMessage) (text : String)
  | replyAs (u : ChatUser) (replyTo : ChatMessage) (text : String)

/-- Dispatch one direct call to the corresponding Bridge method. -/
def bridgeDirect (env : Env) (b : BridgeState) : DirectCall →
    Trace × Except Err (ChatMessage × BridgeState)
  | DirectCall.send t => bridgeSend env b t
  | DirectCall.sendAs u t => bridgeSendAs env b u t
  | DirectCall.reply r t => bridgeReply env b r t
  | DirectCall.replyAs u r t => bridgeReplyAs env b u r t

/-- A sequence of direct Send/SendAs/Reply/ReplyAs calls, returning
the identifiers of the successfully sent messages in completion
order. -/
def runDirect (env : Env) (b : BridgeState) : List DirectCall → List String × BridgeState
  | [] => ([], b)
  | c :: rest =>
    match (bridgeDirect env b c).2 with
    | Except.error _ => runDirect env b rest
    | Except.ok mb =>
      let r := runDirect env mb.2 rest
      (mb.1.id :: r.1, r.2)

/-- A Telegram `User`, with the fields `chatUser` reads. -/
structure TelUser where
  id : Int
  firstName : String
  lastName : String
  username : String
deriving Repr, DecidableEq

/-- A Telegram `Message`, with the fields `chatEvent` reads (`time` is
the value of the `Time()` accessor; `document`/`sticker` carry the
respective `FileID`). -/
inductive TelMessage where
  | mk (messageID : Nat) (time : Int) (fromUser : Option TelUser)
      (replyToMessage : Option TelMessage) (newChatMember : Option TelUser)
      (leftChatMember : Option TelUser) (document : Option String)
      (sticker : Option String) (text : Option String)

def TelMessage.messageID : TelMessage → Nat
  | TelMessage.mk v _ _ _ _ _ _ _ _ => v

def TelMessage.time : TelMessage → Int
  | TelMessage.mk _ v _ _ _ _ _ _ _ => v

def TelMessage.fromUser : TelMessage → Option TelUser
  | TelMessage.mk _ _ v _ _ _ _ _ _ => v

def TelMessage.replyToMessage : TelMessage → Option TelMessage
  | TelMessage.mk _ _ _ v _ _ _ _ _ => v

def TelMessage.newChatMember : TelMessage → Option TelUser
  | TelMessage.mk _ _ _ _ v _ _ _ _ => v

def TelMessage.leftChatMember : TelMessage → Option TelUser
  | TelMessage.mk _ _ _ _ _ v _ _ _ => v

def TelMessage.document : TelMessage → Option String
  | TelMessage.mk _ _ _ _ _ _ v _ _ => v

def TelMessage.sticker : TelMessage → Option String
  | TelMessage.mk _ _ _ _ _ _ _ v _ => v

def TelMessage.text : TelMessage → Option String
  | TelMessage.mk _ _ _ _ _ _ _ _ v => v

/-- A Telegram `Update`: at most one of a new message and an edited
message. -/
structure TelUpdate where
  message : Option TelMessage
  editedMessage : Option TelMessage

/-- `chatUser` on a non-nil `*User` (the `photo` oracle stands for the
`userPhotoURL` lookup through the client's state). -/
def telChatUser (photo : Int → String) (user : TelUser) : ChatUser :=
  let name := (user.firstName ++ " " ++ user.lastName).trim
  let nick := if user.username == "" then name else user.username
  { id := Int.repr user.id, nick := nick, fullName := name,
    displayName := name, photoURL := photo user.id }

/-- `chatUser` as called on a possibly-nil `*User`: the Go function
documents that it assumes its argument is non-nil, so a `none`
argument is the nil-pointer dereference, modelled as an error. -/
def telChatUserOpt (photo : Int → String) : Option TelUser → Except Unit ChatUser
  | none => Except.error ()
  | some user => Except.ok (telChatUser photo user)

/-- `chatMessageID`: decimal string of the native message id. -/
def telChatMessageID (m : TelMessage) : String := Nat.repr m.messageID

/-- `messageText`: the text, or `""` when absent. -/
def telMessageText (m : TelMessage) : String := m.text.getD ""

/-- `chatMessage` (documented to assume `m.From != nil`). -/
def telChatMessage (photo : Int → String) (m : TelMessage) : Except Unit ChatMessage :=
  (telChatUserOpt photo m.fromUser).map
    (fun u => { id := telChatMessageID m, fromUser := u, text := telMessageText m })

/-- `mediaURL`: a URL under the client's local URL, when one is set. -/
def mediaURL (localURL : Option String) (fileID : String) : Option String :=
  localURL.map (fun base => base ++ "/" ++ fileID)

/-- The `msg.Text != nil` case of `chatEvent`'s inner switch (last
case; anything else is ignored). -/
def telCaseText (photo : Int → String) (msg : TelMessage) : Except Unit (Option Event) :=
  match msg.text with
  | some _ => (telChatMessage photo msg).map (fun m => some (Event.message m))
  | none => Except.ok none

/-- The `msg.Sticker != nil` case: when a media URL is available, a
synthesized `/me sent a sticker` message; otherwise the update is
ignored.  Falls through to the text case when no sticker is set. -/
def telCaseSticker (photo : Int → String) (localURL : Option String)
    (msg : TelMessage) : Except Unit (Option Event) :=
  match msg.sticker with
  | some fileID =>
    match mediaURL localURL fileID with
    | some url =>
      (telChatUserOpt photo msg.fromUser).map (fun u => some (Event.message
        { id := telChatMessageID msg, fromUser := u, text := "/me sent a sticker: " ++ url }))
    | none => Except.ok none
  | none => telCaseText photo msg

/-- The `msg.Document != nil` case, analogous to the sticker case. -/
def telCaseDocument (photo : Int → String) (localURL : Option String)
    (msg : TelMessage) : Except Unit (Option Event) :=
  match msg.document with
  | some fileID =>
    match mediaURL localURL fileID with
    | some url =>
      (telChatUserOpt photo msg.fromUser).map (fun u => some (Event.message
        { id := telChatMessageID msg, fromUser := u, text := "/me shared a file: " ++ url }))
    | none => Except.ok none
  | none => telCaseSticker photo localURL msg

/-- The `msg.LeftChatMember != nil` case.  As in the source, the user
passed to `chatUser` is `msg.NewChatMember` — which is nil whenever
this case is reached. -/
def telCaseLeft (photo : Int → String) (localURL : Option String)
    (msg : TelMessage) : Except Unit (Option Event) :=
  match msg.leftChatMember with
  | some _ =>
    (telChatUserOpt photo msg.newChatMember).map (fun u => some (Event.leave u))
  | none => telCaseDocument photo localURL msg

/-- The `msg.NewChatMember != nil` case. -/
def telCaseJoin (photo : Int → String) (localURL : Option String)
    (msg : TelMessage) : Except Unit (Option Event) :=
  match msg.newChatMember with
  | some _ =>
    (telChatUserOpt photo msg.newChatMember).map (fun u => some (Event.join u))
  | none => telCaseLeft photo localURL msg

/-- The inner switch of `chatEvent` on a new message, starting with
the reply case (`ReplyToMessage` present and carrying a `From`). -/
def telCaseReply (photo : Int → String) (localURL : Option String)
    (msg : TelMessage) : Except Unit (Option Event) :=
  match msg.replyToMessage with
  | some r =>
    if r.fromUser.isSome then
      (telChatMessage photo r).bind (fun replyTo =>
        (telChatMessage photo msg).map (fun rep => some (Event.reply replyTo rep)))
    else telCaseJoin photo localURL msg
  | none => telCaseJoin photo localURL msg

/-- `chatEvent`: map one Telegram update to at most one chat event
(`Except.ok none` is an ignored update; `Except.error ()` is a crash
on a nil-pointer dereference). -/
def chatEvent (created : Int) (photo : Int → String) (localURL : Option String)
    (u : TelUpdate) : Except Unit (Option Event) :=
  if u.message.any (fun m => decide (m.time < created)) then Except.ok none
  else if u.editedMessage.any (fun m => decide (m.time < created)) then Except.ok none
  else if u.message.any (fun m => m.fromUser.isNone) then Except.ok none
  else
    match u.message with
    | some msg => telCaseReply photo localURL msg
    | none =>
      match u.editedMessage with
      | some msg =>
        Except.ok (some (Event.edit (telChatMessageID msg) (telChatMessageID msg)
          (telMessageText msg)))
      | none => Except.ok none

/-- Numeric value of a decimal digit character. -/
def decDigit (c : Char) : Nat := c.toNat - 48

/-- Decode a list of decimal digit characters, accumulating onto `a`. -/
def decDigits (a : Nat) : List Char → Nat
  | [] => a
  | c :: cs => decDigits (10 * a + decDigit c) cs

/-- A sample user for concrete scenarios. -/
def witUser : ChatUser :=
  { id := "u0", nick := "u0", fullName := "User Zero",
    displayName := "User Zero", photoURL := "" }

/-- A second sample user. -/
def aliceUser : ChatUser :=
  { id := "7", nick := "alice", fullName := "Alice A",
    displayName := "Alice", photoURL := "" }

/-- A sample message from `aliceUser` as it arrives on a channel. -/
def m1 : ChatMessage := { id := "m1", fromUser := aliceUser, text := "hi" }

/-- A backend behaviour on which every call succeeds, tagging the
returned ids with the channel number. -/
def okBehavior (c : ChannelId) : Behavior :=
  { sendR := fun t => Except.ok { id := "snd" ++ Nat.repr c, fromUser := witUser, text := t }
    sendAsR := fun u t => Except.ok { id := "as" ++ Nat.repr c, fromUser := u, text := t }
    replyR := fun r t =>
      Except.ok { id := "rp" ++ Nat.repr c ++ r.id, fromUser := witUser, text := t }
    replyAsR := fun u r t =>
      Except.ok { id := "ra" ++ Nat.repr c ++ r.id, fromUser := u, text := t }
    editR := fun _ _ => Except.ok ("ed" ++ Nat.repr c)
    deleteR := fun _ => Except.ok ()
    chanName := "ch" ++ Nat.repr c
    serviceName := "svc" }

/-- An environment on which every backend call succeeds. -/
def envOK : Env := okBehavior

/-- Like `envOK`, except channel 2's `SendAs` fails with `io.EOF`. -/
def envFailEOF : Env := fun c =>
  if c = 2 then { okBehavior 2 with sendAsR := fun _ _ => Except.error Err.eof }
  else okBehavior c

/-- Like `envOK`, except channel 2's `SendAs` fails with an ordinary
error. -/
def envFailBoom : Env := fun c =>
  if c = 2 then { okBehavior 2 with sendAsR := fun _ _ => Except.error (Err.other "boom") }
  else okBehavior c

/-- The expected per-target copies for a `SendAs` broadcast of `m1`
under `envOK`. -/
def asCopy (m : ChatMessage) (c : ChannelId) : ChatMessage :=
  { id := "as" ++ Nat.repr c, fromUser := m.fromUser, text := m.text }

/-- A fresh bridge over three backends used by the C1 witness. -/
def b1 : BridgeState := newBridge 9 [1, 2, 3]

/-- Recorded copies of an earlier message relayed from channel 1:
copies on channels 2 and 3, plus the origin's own copy. -/
def mA : ChatMessage := { id := "a1", fromUser := aliceUser, text := "hello" }

def mB : ChatMessage := { id := "b1", fromUser := witUser, text := "hello" }

def mC : ChatMessage := { id := "c1", fromUser := witUser, text := "hello" }

/-- The log entry for that earlier relayed message (origin 1). -/
def entryABC : LogEntry := { origin := 1, copies := [⟨2, mB⟩, ⟨3, mC⟩, ⟨1, mA⟩] }

/-- Bridge over four backends whose log holds `entryABC`; channel 4
has no recorded copy. -/
def b2 : BridgeState := { self := 9, channels := [1, 2, 3, 4], nextID := 0, log := [entryABC] }

/-- A log entry whose copy on channel 2 carries id `"x"`, for the Edit
correlation scenario. -/
def entryX : LogEntry :=
  { origin := 1,
    copies := [⟨2, { id := "x", fromUser := witUser, text := "hi" }⟩,
               ⟨1, { id := "5", fromUser := aliceUser, text := "hi" }⟩] }

/-- Bridge over two backends whose log holds `entryX`. -/
def b4 : BridgeState := { self := 9, channels := [1, 2], nextID := 0, log := [entryX] }

/-- A fresh bridge over two backends used by the failure scenarios. -/
def b5 : BridgeState := newBridge 9 [1, 2]

/-- A placeholder log entry for filling the log to capacity. -/
def entry0 : LogEntry := { origin := 1, copies := [] }

/-- A bridge whose correlation log is exactly at capacity. -/
def bFull : BridgeState :=
  { self := 9, channels := [1, 2], nextID := 0, log := List.replicate 500 entry0 }

/-- Sample Telegram users. -/
def tAlice : TelUser := { id := 7, firstName := "Alice", lastName := "A", username := "alice" }

def tBob : TelUser := { id := 8, firstName := "Bob", lastName := "B", username := "bob" }

/-- A Telegram update in which `tBob` left the chat: sent by `tAlice`
(so the `From` discard rule passes) at time 10 (after channel
creation), with `LeftChatMember` set and `NewChatMember` nil. -/
def leaveUpdate : TelUpdate :=
  { message := some (TelMessage.mk 7 10 (some tAlice) none none (some tBob) none none none),
    editedMessage := none }

/-- A mixed sequence of direct Send/SendAs/Reply/ReplyAs calls. -/
def calls4 : List DirectCall :=
  [DirectCall.send "a", DirectCall.sendAs aliceUser "b",
   DirectCall.reply mA "c", DirectCall.replyAs aliceUser mA "d"]

/-- One direct Send more than the 64-bit counter's non-negative
range: enough successful calls to wrap `nextID` past `2^63 - 1`. -/
def bigCalls : List DirectCall := List.replicate (2 ^ 63 + 1) (DirectCall.send "t")

theorem decDigit_digitChar : ∀ d : Nat, d < 10 → decDigit (Nat.digitChar d) = d := by
  intro d h
  interval_cases d <;> rfl

theorem decDigits_cons (a : Nat) (c : Char) (cs : List Char) :
    decDigits a (c :: cs) = decDigits (10 * a + decDigit c) cs := rfl

theorem decDigits_nil (a : Nat) : decDigits a [] = a := rfl

theorem decDigits_append (s t : List Char) : ∀ a : Nat,
    decDigits a (s ++ t) = decDigits (decDigits a s) t := by
  induction s with
  | nil => intro a; rfl
  | cons c cs ih =>
    intro a
    rw [List.cons_append, decDigits_cons, decDigits_cons]
    exact ih _

theorem toDigitsCore_append (b : Nat) : ∀ (fuel n : Nat) (ds : List Char),
    Nat.toDigitsCore b fuel n ds = Nat.toDigitsCore b fuel n [] ++ ds := by
  intro fuel
  induction fuel with
  | zero => intro n ds; simp [Nat.toDigitsCore]
  | succ fuel ih =>
    intro n ds
    simp only [Nat.toDigitsCore]
    by_cases h : n / b = 0
    · simp [h]
    · rw [if_neg h, if_neg h]
      rw [ih (n / b) (Nat.digitChar (n % b) :: ds), ih (n / b) [Nat.digitChar (n % b)]]
      simp

theorem decDigits_toDigitsCore : ∀ (fuel n a : Nat), n < fuel →
    decDigits a (Nat.toDigitsCore 10 fuel n []) =
      a * 10 ^ (Nat.toDigitsCore 10 fuel n []).length + n := by
  intro fuel
  induction fuel with
  | zero => intro n a h; omega
  | succ fuel ih =>
    intro n a h
    simp only [Nat.toDigitsCore]
    by_cases h0 : n / 10 = 0
    · have hn : n < 10 := by omega
      have hmod : n % 10 = n := Nat.mod_eq_of_lt hn
      rw [if_pos h0, decDigits_cons, decDigits_nil, hmod, decDigit_digitChar n hn,
        List.length_singleton, pow_one]
      ring
    · have hlt : n / 10 < fuel := by
        have h1 : n / 10 < n := Nat.div_lt_self (by omega) (by omega)
        omega
      rw [if_neg h0]
      rw [toDigitsCore_append 10 fuel (n / 10) [Nat.digitChar (n % 10)]]
      rw [decDigits_append]
      rw [ih (n / 10) a hlt]
      rw [decDigits_cons, decDigits_nil]
      have hm : n % 10 < 10 := Nat.mod_lt _ (by omega)
      rw [decDigit_digitChar _ hm, List.length_append, List.length_singleton, pow_succ]
      have hdm : 10 * (n / 10) + n % 10 = n := by omega
      have hre : 10 * (a * 10 ^ (Nat.toDigitsCore 10 fuel (n / 10) []).length + n / 10)
          + n % 10
          = a * (10 ^ (Nat.toDigitsCore 10 fuel (n / 10) []).length * 10)
            + (10 * (n / 10) + n % 10) := by ring
      rw [hre, hdm]

theorem decDigits_toDigits (n : Nat) : decDigits 0 (Nat.toDigits 10 n) = n := by
  have := decDigits_toDigitsCore (n + 1) n 0 (Nat.lt_succ_self n)
  simpa [Nat.toDigits] using this

theorem natRepr_injective : Function.Injective Nat.repr := by
  intro m n h
  have hd : Nat.toDigits 10 m = Nat.toDigits 10 n := by
    have h2 := congrArg String.data h
    simpa [Nat.repr, List.asString] using h2
  calc m = decDigits 0 (Nat.toDigits 10 m) := (decDigits_toDigits m).symm
    _ = decDigits 0 (Nat.toDigits 10 n) := by rw [hd]
    _ = n := decDigits_toDigits n

theorem collectSends_cons_ok (ch : ChannelId) (m : ChatMessage)
    (rest : List (ChannelId × Except Err ChatMessage)) :
    collectSends ((ch, Except.ok m) :: rest)
      = (collectSends rest).map (fun ms => ⟨ch, m⟩ :: ms) := rfl

theorem collectSends_cons_error (ch : ChannelId) (e : Err)
    (rest : List (ChannelId × Except Err ChatMessage)) :
    collectSends ((ch, Except.error e) :: rest) = Except.error e := rfl

theorem collectSends_ok (env : Env) (sendAs : Option ChatUser)
    (fm : ChannelId → Option ChatMessage) (text : String) (f : ChannelId → ChatMessage) :
    ∀ l : List ChannelId, (∀ c ∈ l, sendResult env sendAs fm text c = Except.ok (f c)) →
      collectSends (l.map fun ch => (ch, sendResult env sendAs fm text ch))
        = Except.ok (l.map fun ch => (⟨ch, f ch⟩ : BMessage)) := by
  intro l
  induction l with
  | nil => intro _; rfl
  | cons a l ih =>
    intro h
    have ha := h a (List.mem_cons_self a l)
    simp only [List.map_cons]
    rw [ha, collectSends_cons_ok, ih (fun c hc => h c (List.mem_cons_of_mem a hc))]
    rfl

theorem collectSends_error (env : Env) (sendAs : Option ChatUser)
    (fm : ChannelId → Option ChatMessage) (text : String) (e : Err) (c0 : ChannelId)
    (f : ChannelId → ChatMessage) :
    ∀ l : List ChannelId, c0 ∈ l →
      sendResult env sendAs fm text c0 = Except.error e →
      (∀ c ∈ l, c ≠ c0 → sendResult env sendAs fm text c = Except.ok (f c)) →
      collectSends (l.map fun ch => (ch, sendResult env sendAs fm text ch))
        = Except.error e := by
  intro l
  induction l with
  | nil => intro h0; cases h0
  | cons a l ih =>
    intro hmem herr hok
    simp only [List.map_cons]
    by_cases ha : a = c0
    · subst ha
      rw [herr, collectSends_cons_error]
    · have haok := hok a (List.mem_cons_self a l) ha
      rw [haok, collectSends_cons_ok]
      have hmem2 : c0 ∈ l := by
        rcases List.mem_cons.mp hmem with h1 | h1
        · exact absurd h1.symm ha
        · exact h1
      rw [ih hmem2 herr (fun c hc hne => hok c (List.mem_cons_of_mem a hc) hne)]
      rfl

theorem muxStep_terminal (env : Env) (s : MuxState) (x : Option Err)
    (h : s.terminal = some x) (inp : MuxInput) : muxStep env s inp = (s, []) := by
  unfold muxStep
  rw [h]

theorem muxRun_terminal (env : Env) (s : MuxState) (x : Option Err)
    (h : s.terminal = some x) : ∀ l, muxRun env s l = (s, []) := by
  intro l
  induction l with
  | nil => rfl
  | cons i rest ih =>
    unfold muxRun
    rw [muxStep_terminal env s x h i]
    simp only []
    rw [ih]
    rfl

theorem countP_map_fst (k : ChannelId → Call) (c0 : ChannelId) (l : List ChannelId) :
    ((l.map fun c => (c, k c)).countP fun p => p.1 == c0) = l.count c0 := by
  rw [List.countP_map]
  rfl

theorem length_filter_ne (o : ChannelId) : ∀ l : List ChannelId, l.Nodup → o ∈ l →
    (l.filter fun c => c != o).length = l.length - 1 := by
  intro l
  induction l with
  | nil => intro _ h0; cases h0
  | cons a l ih =>
    intro hnd hmem
    by_cases ha : a = o
    · subst ha
      have hnotin : a ∉ l := (List.nodup_cons.mp hnd).1
      have hall : ∀ x ∈ l, (x != a) = true := by
        intro x hx
        have : x ≠ a := fun hxa => hnotin (hxa ▸ hx)
        simpa [bne] using this
      simp only [List.filter_cons, bne_self_eq_false]
      rw [List.filter_eq_self.mpr hall]
      simp
    · have hmem2 : o ∈ l := by
        rcases List.mem_cons.mp hmem with h1 | h1
        · exact absurd h1.symm ha
        · exact h1
      have hlen : 0 < l.length := List.length_pos.mpr (List.ne_nil_of_mem hmem2)
      have hane : (a != o) = true := by simpa [bne] using ha
      simp only [List.filter_cons, hane, if_true, List.length_cons]
      rw [ih (List.nodup_cons.mp hnd).2 hmem2]
      omega

theorem sendMessage_sendAs_eq (env : Env) (l : List ChannelId) (u : ChatUser) (text : String) :
    sendMessage env l (some u) none text
      = (l.map fun c => (c, Call.sendAs u text),
         collectSends (l.map fun c => (c, (env c).sendAsR u text))) := rfl

theorem sendMessage_plain_eq (env : Env) (l : List ChannelId) (text : String) :
    sendMessage env l none none text
      = (l.map fun c => (c, Call.send text),
         collectSends (l.map fun c => (c, (env c).sendR text))) := rfl

theorem sendMessage_find_eq (env : Env) (l : List ChannelId)
    (fm : ChannelId → Option ChatMessage) (text : String) :
    sendMessage env l none (some fm) text
      = (l.map fun c => (c, sendCall none fm text c),
         collectSends (l.map fun c => (c, sendResult env none fm text c))) := rfl

theorem relay_message_eq (env : Env) (b : BridgeState) (o : ChannelId) (m : ChatMessage) :
    relay env b o (Event.message m)
      = (match collectSends ((allChannelsExcept b o).map
            fun c => (c, (env c).sendAsR m.fromUser m.text)) with
         | Except.error e =>
           ((allChannelsExcept b o).map fun c => (c, Call.sendAs m.fromUser m.text),
            Except.error e)
         | Except.ok msgs =>
           ((allChannelsExcept b o).map fun c => (c, Call.sendAs m.fromUser m.text),
            Except.ok (logMessage b ⟨o, msgs ++ [⟨o, m⟩]⟩))) := rfl

theorem relay_reply_eq (env : Env) (b : BridgeState) (o : ChannelId)
    (replyTo rep : ChatMessage) :
    relay env b o (Event.reply replyTo rep)
      = (match collectSends ((allChannelsExcept b o).map
            fun c => (c, sendResult env none (makeFindMessage b o replyTo.id) rep.text c)) with
         | Except.error e =>
           ((allChannelsExcept b o).map
             fun c => (c, sendCall none (makeFindMessage b o replyTo.id) rep.text c),
            Except.error e)
         | Except.ok msgs =>
           ((allChannelsExcept b o).map
             fun c => (c, sendCall none (makeFindMessage b o replyTo.id) rep.text c),
            Except.ok (logMessage b ⟨b.self, msgs ++ [⟨o, rep⟩]⟩))) := rfl

theorem relay_edit_eq (env : Env) (b : BridgeState) (o : ChannelId)
    (id newID text : String) :
    relay env b o (Event.edit id newID text)
      = ((editMessage env (allChannelsExcept b o) (makeFindMessage b o id) text).1,
         Except.map (fun _ => b)
           (editMessage env (allChannelsExcept b o) (makeFindMessage b o id) text).2) := rfl

theorem relay_delete_eq (env : Env) (b : BridgeState) (o : ChannelId) (id : String) :
    relay env b o (Event.delete id)
      = ((deleteMessage env (allChannelsExcept b o) (makeFindMessage b o id)).1,
         Except.map (fun _ => b)
           (deleteMessage env (allChannelsExcept b o) (makeFindMessage b o id)).2) := rfl

theorem relay_message_ok (env : Env) (b : BridgeState) (o : ChannelId) (m : ChatMessage)
    (f : ChannelId → ChatMessage)
    (h : ∀ c ∈ allChannelsExcept b o, (env c).sendAsR m.fromUser m.text = Except.ok (f c)) :
    relay env b o (Event.message m)
      = ((allChannelsExcept b o).map fun c => (c, Call.sendAs m.fromUser m.text),
         Except.ok (logMessage b
           ⟨o, ((allChannelsExcept b o).map fun c => (⟨c, f c⟩ : BMessage)) ++ [⟨o, m⟩]⟩)) := by
  have hsr : ∀ c ∈ allChannelsExcept b o,
      sendResult env (some m.fromUser) (fun _ => none) m.text c = Except.ok (f c) := by
    intro c hc
    exact h c hc
  have hcol := collectSends_ok env (some m.fromUser) (fun _ => none) m.text f _ hsr
  rw [relay_message_eq]
  rw [show (((allChannelsExcept b o).map fun c => (c, (env c).sendAsR m.fromUser m.text)))
      = ((allChannelsExcept b o).map
          fun c => (c, sendResult env (some m.fromUser) (fun _ => none) m.text c)) from rfl]
  rw [hcol]

/-- Claim C1: relaying a Message event from origin channel A issues
exactly one SendAs (carrying the original sender) on each of the other
N−1 channels and none on A, waits for all of them, appends one log
entry whose copies are each target's returned message plus the
original recorded as A's own copy, and the event is appended to the
Bridge's own receive queue, so `Receive` subsequently yields it. -/
theorem c1_broadcast_completeness (env : Env) (b : BridgeState) (o : ChannelId)
    (m : ChatMessage) (f : ChannelId → ChatMessage)
    (h : ∀ c ∈ allChannelsExcept b o, (env c).sendAsR m.fromUser m.text = Except.ok (f c))
    (hnd : b.channels.Nodup) (ho : o ∈ b.channels) :
    relay env b o (Event.message m)
      = ((allChannelsExcept b o).map fun c => (c, Call.sendAs m.fromUser m.text),
         Except.ok (logMessage b
           ⟨o, ((allChannelsExcept b o).map fun c => (⟨c, f c⟩ : BMessage)) ++ [⟨o, m⟩]⟩)) ∧
    (∀ c ∈ b.channels, c ≠ o →
      ((relay env b o (Event.message m)).1.countP fun p => p.1 == c) = 1) ∧
    (∀ p ∈ (relay env b o (Event.message m)).1,
      p.1 ≠ o ∧ p.2 = Call.sendAs m.fromUser m.text) ∧
    (relay env b o (Event.message m)).1.length = b.channels.length - 1 ∧
    (∀ s : MuxState, s.terminal = none → s.bridge = b →
      (muxStep env s (MuxInput.ev o (Event.message m))).1.recvQueue
          = s.recvQueue ++ [Event.message m] ∧
      (muxStep env s (MuxInput.ev o (Event.message m))).1.terminal = none) := by
  have hmain := relay_message_ok env b o m f h
  refine ⟨hmain, ?_, ?_, ?_, ?_⟩
  · intro c hc hcne
    rw [hmain]
    simp only []
    rw [countP_map_fst (fun _ => Call.sendAs m.fromUser m.text) c]
    have hmemf : c ∈ b.channels.filter (fun x => x != o) :=
      List.mem_filter.mpr ⟨hc, by simpa [bne] using hcne⟩
    exact List.count_eq_one_of_mem (hnd.filter _) hmemf
  · intro p hp
    rw [hmain] at hp
    simp only [List.mem_map] at hp
    obtain ⟨c, hcf, rfl⟩ := hp
    have := List.mem_filter.mp hcf
    refine ⟨?_, rfl⟩
    simpa [bne] using this.2
  · rw [hmain]
    simp only [List.length_map]
    exact length_filter_ne o b.channels hnd ho
  · intro s hs hsb
    unfold muxStep
    rw [hs]
    simp only []
    rw [hsb, hmain]
    exact ⟨rfl, rfl⟩

/-- Witness for C1: a concrete three-channel bridge relaying `m1` from
channel 1 issues exactly the two SendAs calls on channels 2 and 3 and
logs the three copies. -/
theorem c1_broadcast_completeness_witness :
    relay envOK b1 1 (Event.message m1)
      = ([(2, Call.sendAs aliceUser "hi"), (3, Call.sendAs aliceUser "hi")],
         Except.ok (logMessage b1 ⟨1, [⟨2, asCopy m1 2⟩, ⟨3, asCopy m1 3⟩, ⟨1, m1⟩]⟩)) ∧
    ((relay envOK b1 1 (Event.message m1)).1.countP fun p => p.1 == 2) = 1 := by
  have h := c1_broadcast_completeness envOK b1 1 m1 (fun c => asCopy m1 c)
    (by intro c hc
        have h23 : allChannelsExcept b1 1 = [2, 3] := rfl
        rw [h23] at hc
        fin_cases hc <;> rfl)
    (by decide) (by decide)
  exact ⟨h.1.trans rfl, h.2.1 2 (by decide) (by decide)⟩

theorem logMessage_append_of_lt (b : BridgeState) (e : LogEntry)
    (h : b.log.length < maxHistory) : (logMessage b e).log = b.log ++ [e] := by
  unfold logMessage
  simp only []
  rw [if_neg]
  simp only [List.length_append, List.length_singleton]
  omega

theorem logMessage_frozen_of_eq (b : BridgeState) (e : LogEntry)
    (h : b.log.length = maxHistory) : (logMessage b e).log = b.log := by
  unfold logMessage
  simp only []
  rw [if_pos]
  · rw [← h, List.take_left]
  · simp only [List.length_append, List.length_singleton]
    omega

theorem logMessage_length_le (b : BridgeState) (e : LogEntry)
    (h : b.log.length ≤ maxHistory) : (logMessage b e).log.length ≤ maxHistory := by
  rcases Nat.lt_or_ge b.log.length maxHistory with hlt | hge
  · rw [logMessage_append_of_lt b e hlt]
    simp only [List.length_append, List.length_singleton]
    omega
  · have heq : b.log.length = maxHistory := le_antisymm h hge
    rw [logMessage_frozen_of_eq b e heq, heq]

/-- Claim C2: relaying a Reply from channel B that resolves the log
entry recorded for `replyTo.id` issues a `Reply` against the locally
recorded copy on every target channel that has one, a plain `Send` on
every target channel without one, and appends a new log entry for the
reply broadcast. -/
theorem c2_correlation_correctness (env : Env) (b : BridgeState) (o : ChannelId)
    (replyTo rep : ChatMessage) (entry : LogEntry) (f : ChannelId → ChatMessage)
    (he : findEntry b.log o replyTo.id = some entry)
    (hok : ∀ c ∈ allChannelsExcept b o,
      sendResult env none (makeFindMessage b o replyTo.id) rep.text c = Except.ok (f c)) :
    relay env b o (Event.reply replyTo rep)
      = ((allChannelsExcept b o).map
          fun c => (c, sendCall none (makeFindMessage b o replyTo.id) rep.text c),
         Except.ok (logMessage b
           ⟨b.self,
            ((allChannelsExcept b o).map fun c => (⟨c, f c⟩ : BMessage)) ++ [⟨o, rep⟩]⟩)) ∧
    (∀ c cp, (entry.copies.find? fun x => x.toCh == c) = some cp →
      sendCall none (makeFindMessage b o replyTo.id) rep.text c = Call.reply cp.msg rep.text) ∧
    (∀ c, (entry.copies.find? fun x => x.toCh == c) = none →
      sendCall none (makeFindMessage b o replyTo.id) rep.text c = Call.send rep.text) ∧
    (b.log.length < maxHistory →
      ∃ b2, (relay env b o (Event.reply replyTo rep)).2 = Except.ok b2 ∧
        b2.log = b.log
          ++ [⟨b.self,
              ((allChannelsExcept b o).map fun c => (⟨c, f c⟩ : BMessage)) ++ [⟨o, rep⟩]⟩]) := by
  have hcol := collectSends_ok env none (makeFindMessage b o replyTo.id) rep.text f _ hok
  have hmain : relay env b o (Event.reply replyTo rep)
      = ((allChannelsExcept b o).map
          fun c => (c, sendCall none (makeFindMessage b o replyTo.id) rep.text c),
         Except.ok (logMessage b
           ⟨b.self,
            ((allChannelsExcept b o).map fun c => (⟨c, f c⟩ : BMessage)) ++ [⟨o, rep⟩]⟩)) := by
    rw [relay_reply_eq, hcol]
  refine ⟨hmain, ?_, ?_, ?_⟩
  · intro c cp hcp
    have hfm : makeFindMessage b o replyTo.id c = some cp.msg := by
      simp [makeFindMessage, he, hcp]
    simp [sendCall, hfm]
  · intro c hnone
    have hfm : makeFindMessage b o replyTo.id c = none := by
      simp [makeFindMessage, he, hnone]
    simp [sendCall, hfm]
  · intro hlt
    refine ⟨_, by rw [hmain], ?_⟩
    exact logMessage_append_of_lt b _ hlt

/-- Witness for C2: on a bridge whose log records copies of an earlier
message from channel 1 (`mB` on 2, `mC` on 3, `mA` on 1), a Reply from
channel 2 to `mB` dispatches a backend `Reply` against `mC` on channel
3 and a plain `Send` on channel 4, which has no recorded copy. -/
theorem c2_correlation_correctness_witness :
    sendCall none (makeFindMessage b2 2 "b1") "hey" 3 = Call.reply mC "hey" ∧
    sendCall none (makeFindMessage b2 2 "b1") "hey" 4 = Call.send "hey" := by
  have h := c2_correlation_correctness envOK b2 2 mB ⟨"hey1", witUser, "hey"⟩ entryABC
    (fun c =>
      if c = 1 then ⟨"rp1a1", witUser, "hey"⟩
      else if c = 3 then ⟨"rp3c1", witUser, "hey"⟩
      else ⟨"snd4", witUser, "hey"⟩)
    (by rfl)
    (by intro c hc
        have hl : allChannelsExcept b2 2 = [1, 3, 4] := rfl
        rw [hl] at hc
        fin_cases hc <;> rfl)
  exact ⟨h.2.1 3 ⟨3, mC⟩ (by rfl), h.2.2.1 4 (by rfl)⟩

theorem relay_join_eq (env : Env) (b : BridgeState) (o : ChannelId) (who : ChatUser) :
    relay env b o (Event.join who)
      = ((sendMessage env (allChannelsExcept b o) none none
            (who.name ++ " joined " ++ ((env o).chanName ++ " on " ++ (env o).serviceName))).1,
         Except.map (fun _ => b)
           (sendMessage env (allChannelsExcept b o) none none
             (who.name ++ " joined "
               ++ ((env o).chanName ++ " on " ++ (env o).serviceName))).2) := rfl

theorem relay_leave_eq (env : Env) (b : BridgeState) (o : ChannelId) (who : ChatUser) :
    relay env b o (Event.leave who)
      = ((sendMessage env (allChannelsExcept b o) none none
            (who.name ++ " left " ++ ((env o).chanName ++ " on " ++ (env o).serviceName))).1,
         Except.map (fun _ => b)
           (sendMessage env (allChannelsExcept b o) none none
             (who.name ++ " left "
               ++ ((env o).chanName ++ " on " ++ (env o).serviceName))).2) := rfl

theorem relay_rename_eq (env : Env) (b : BridgeState) (o : ChannelId)
    (fromU toU : ChatUser) :
    relay env b o (Event.rename fromU toU)
      = (if (fromU.name == toU.name) = true then ([], Except.ok b)
         else
           ((sendMessage env (allChannelsExcept b o) none none
              (fromU.name ++ " renamed to " ++ toU.name ++ " in "
                ++ ((env o).chanName ++ " on " ++ (env o).serviceName))).1,
            Except.map (fun _ => b)
              (sendMessage env (allChannelsExcept b o) none none
                (fromU.name ++ " renamed to " ++ toU.name ++ " in "
                  ++ ((env o).chanName ++ " on " ++ (env o).serviceName))).2)) := rfl

theorem muxStep_none_eq (env : Env) (s : MuxState) (inp : MuxInput)
    (h : s.terminal = none) :
    muxStep env s inp
      = (match inp with
         | MuxInput.closeReq => ({ s with terminal := some none }, ([] : Trace))
         | MuxInput.pollErr e => ({ s with terminal := some (some e) }, ([] : Trace))
         | MuxInput.ev origin what =>
           match relay env s.bridge origin what with
           | (tr, Except.error e) => ({ s with terminal := some (some e) }, tr)
           | (tr, Except.ok b2) =>
             ({ s with bridge := b2, recvQueue := s.recvQueue ++ [what] }, tr)) := by
  unfold muxStep
  rw [h]

theorem snd_match_collect (A : Trace) (X : Except Err (List BMessage))
    (g : List BMessage → BridgeState) :
    (match X with
     | Except.error e => (A, Except.error e)
     | Except.ok msgs => (A, Except.ok (g msgs))).2
      = (match X with
         | Except.error e => Except.error e
         | Except.ok msgs => Except.ok (g msgs)) := by
  cases X <;> rfl

theorem relay_ok_log_shape (env : Env) (b : BridgeState) (o : ChannelId) (ev : Event) :
    ∀ b2, (relay env b o ev).2 = Except.ok b2 → b2 = b ∨ ∃ e, b2 = logMessage b e := by
  intro b2 h
  cases ev with
  | message m =>
    rw [relay_message_eq, snd_match_collect] at h
    rcases hc : collectSends ((allChannelsExcept b o).map
        fun c => (c, (env c).sendAsR m.fromUser m.text)) with e | msgs
    · rw [hc] at h
      cases h
    · rw [hc] at h
      simp only [Except.ok.injEq] at h
      exact Or.inr ⟨_, h.symm⟩
  | reply replyTo rep =>
    rw [relay_reply_eq, snd_match_collect] at h
    rcases hc : collectSends ((allChannelsExcept b o).map
        fun c => (c, sendResult env none (makeFindMessage b o replyTo.id) rep.text c)) with e | msgs
    · rw [hc] at h
      cases h
    · rw [hc] at h
      simp only [Except.ok.injEq] at h
      exact Or.inr ⟨_, h.symm⟩
  | edit id newID text =>
    rw [relay_edit_eq] at h
    rcases hc : (editMessage env (allChannelsExcept b o) (makeFindMessage b o id) text).2
        with e | u
    · rw [hc] at h
      cases h
    · rw [hc] at h
      simp only [Except.map, Except.ok.injEq] at h
      exact Or.inl h.symm
  | delete id =>
    rw [relay_delete_eq] at h
    rcases hc : (deleteMessage env (allChannelsExcept b o) (makeFindMessage b o id)).2
        with e | u
    · rw [hc] at h
      cases h
    · rw [hc] at h
      simp only [Except.map, Except.ok.injEq] at h
      exact Or.inl h.symm
  | join who =>
    rw [relay_join_eq] at h
    rcases hc : (sendMessage env (allChannelsExcept b o) none none
        (who.name ++ " joined " ++ ((env o).chanName ++ " on " ++ (env o).serviceName))).2
        with e | msgs
    · rw [hc] at h
      cases h
    · rw [hc] at h
      simp only [Except.map, Except.ok.injEq] at h
      exact Or.inl h.symm
  | leave who =>
    rw [relay_leave_eq] at h
    rcases hc : (sendMessage env (allChannelsExcept b o) none none
        (who.name ++ " left " ++ ((env o).chanName ++ " on " ++ (env o).serviceName))).2
        with e | msgs
    · rw [hc] at h
      cases h
    · rw [hc] at h
      simp only [Except.map, Except.ok.injEq] at h
      exact Or.inl h.symm
  | rename fromU toU =>
    rw [relay_rename_eq] at h
    by_cases hn : (fromU.name == toU.name) = true
    · rw [if_pos hn] at h
      simp only [Except.ok.injEq] at h
      exact Or.inl h.symm
    · rw [if_neg hn] at h
      rcases hc : (sendMessage env (allChannelsExcept b o) none none
          (fromU.name ++ " renamed to " ++ toU.name ++ " in "
            ++ ((env o).chanName ++ " on " ++ (env o).serviceName))).2 with e | msgs
      · rw [hc] at h
        cases h
      · rw [hc] at h
        simp only [Except.map, Except.ok.injEq] at h
        exact Or.inl h.symm

theorem muxStep_log_le (env : Env) (s : MuxState) (inp : MuxInput)
    (h : s.bridge.log.length ≤ maxHistory) :
    (muxStep env s inp).1.bridge.log.length ≤ maxHistory := by
  rcases ht : s.terminal with _ | x
  · rw [muxStep_none_eq env s inp ht]
    cases inp with
    | closeReq => exact h
    | pollErr e => exact h
    | ev o w =>
      rcases hr : relay env s.bridge o w with ⟨tr, r⟩
      simp only []
      rw [hr]
      cases r with
      | error e => exact h
      | ok b2 =>
        simp only []
        rcases relay_ok_log_shape env s.bridge o w b2 (by rw [hr]) with h1 | ⟨e, h1⟩
        · rw [h1]
          exact h
        · rw [h1]
          exact logMessage_length_le s.bridge e h
  · rw [muxStep_terminal env s x ht inp]
    exact h

/-- Claim C3: the correlation log never exceeds 500 entries; an append
that would exceed the cap truncates to the first 500 entries, so the
newly appended (newest) entry is the one discarded and the first 500
entries are retained unchanged; below the cap an append really
appends; and every mux step preserves the bound. -/
theorem c3_log_capacity_cap (b : BridgeState) (entry : LogEntry) :
    (b.log.length ≤ maxHistory → (logMessage b entry).log.length ≤ maxHistory) ∧
    (b.log.length < maxHistory → (logMessage b entry).log = b.log ++ [entry]) ∧
    (b.log.length = maxHistory → (logMessage b entry).log = b.log) ∧
    (∀ (env : Env) (s : MuxState) (inp : MuxInput), s.bridge.log.length ≤ maxHistory →
      (muxStep env s inp).1.bridge.log.length ≤ maxHistory) :=
  ⟨logMessage_length_le b entry, logMessage_append_of_lt b entry,
   logMessage_frozen_of_eq b entry, fun env s inp h => muxStep_log_le env s inp h⟩

/-- Witness for C3: appending to a log already at the 500-entry cap
leaves it unchanged (the newest entry is the one discarded) and within
the bound. -/
theorem c3_log_capacity_witness :
    (logMessage bFull entry0).log = bFull.log ∧
    (logMessage bFull entry0).log.length ≤ maxHistory := by
  have h := c3_log_capacity_cap bFull entry0
  have hlen : bFull.log.length = maxHistory := by
    show (List.replicate 500 entry0).length = maxHistory
    rw [List.length_replicate]
    rfl
  exact ⟨h.2.2.1 hlen, h.1 (le_of_eq hlen)⟩

/-- Claim C4 (code bug): relaying an Edit that resolves the log entry
`entryX` (copy id `"x"` on channel 2) does call the backend Edit on
channel 2, and the backend returns the new id `"ed2"`, but the bridge
state is returned unchanged: the returned identifier is assigned to a
discarded copy of the entry (Go range-variable copy), so subsequent
correlation lookups still resolve the old id `"x"` and never the new
id. -/
theorem c4_edit_id_not_replaced :
    (relay envOK b4 1 (Event.edit "5" "5" "t")).1 = [(2, Call.edit "x" "t")] ∧
    (relay envOK b4 1 (Event.edit "5" "5" "t")).2 = Except.ok b4 ∧
    findEntry b4.log 2 ("ed" ++ Nat.repr 2) = none ∧
    findEntry b4.log 2 "x" = some entryX := ⟨rfl, rfl, rfl, rfl⟩

/-- Counterexample for C5 as stated: when the failing target send
returns `io.EOF`, the relay aborts with that failure and the mux
records it as the terminal error, but `Close` does not return it — it
returns the distinct error `unexpected EOF`. -/
theorem c5_close_error_counterexample :
    (relay envFailEOF b5 1 (Event.message m1)).2 = Except.error Err.eof ∧
    (muxRun envFailEOF (initialMux b5) [MuxInput.ev 1 (Event.message m1)]).1.terminal
      = some (some Err.eof) ∧
    bridgeCloseResult
        (muxRun envFailEOF (initialMux b5) [MuxInput.ev 1 (Event.message m1)]).1
      = some (Err.other "unexpected EOF") ∧
    Err.other "unexpected EOF" ≠ Err.eof := by
  refine ⟨rfl, rfl, rfl, by simp⟩

/-- Claim C5 (amended): if exactly one target channel's send fails
during a Message broadcast, the relay returns that failure, the mux
loop records it as the Bridge's terminal error, no further queued
inputs are relayed afterwards, and `Close` returns exactly that error
provided it is not `io.EOF` (which `Close` rewrites). -/
theorem c5_fatal_fanout (env : Env) (b : BridgeState) (o : ChannelId) (m : ChatMessage)
    (c0 : ChannelId) (e : Err) (f : ChannelId → ChatMessage)
    (hc : c0 ∈ allChannelsExcept b o)
    (he : (env c0).sendAsR m.fromUser m.text = Except.error e)
    (hok : ∀ c ∈ allChannelsExcept b o, c ≠ c0 →
      (env c).sendAsR m.fromUser m.text = Except.ok (f c))
    (hne : e ≠ Err.eof)
    (s : MuxState) (hs : s.terminal = none) (hsb : s.bridge = b)
    (rest : List MuxInput) :
    (relay env b o (Event.message m)).2 = Except.error e ∧
    (muxStep env s (MuxInput.ev o (Event.message m))).1.terminal = some (some e) ∧
    muxRun env (muxStep env s (MuxInput.ev o (Event.message m))).1 rest
      = ((muxStep env s (MuxInput.ev o (Event.message m))).1, []) ∧
    bridgeCloseResult (muxStep env s (MuxInput.ev o (Event.message m))).1 = some e := by
  have hcol := collectSends_error env (some m.fromUser) (fun _ => none) m.text e c0 f
    (allChannelsExcept b o) hc he hok
  have hrel : (relay env b o (Event.message m)).2 = Except.error e := by
    rw [relay_message_eq, snd_match_collect]
    rw [show ((allChannelsExcept b o).map fun c => (c, (env c).sendAsR m.fromUser m.text))
        = ((allChannelsExcept b o).map
            fun c => (c, sendResult env (some m.fromUser) (fun _ => none) m.text c)) from rfl]
    rw [hcol]
  have hstep : (muxStep env s (MuxInput.ev o (Event.message m))).1
      = { s with terminal := some (some e) } := by
    rw [muxStep_none_eq env s _ hs]
    simp only []
    rw [hsb]
    rcases hr : relay env b o (Event.message m) with ⟨tr, r⟩
    have hr2 : r = Except.error e := by
      rw [hr] at hrel
      exact hrel
    subst hr2
    rfl
  have hterm : (muxStep env s (MuxInput.ev o (Event.message m))).1.terminal
      = some (some e) := by
    rw [hstep]
  refine ⟨hrel, hterm, muxRun_terminal env _ (some e) hterm rest, ?_⟩
  unfold bridgeCloseResult
  rw [hterm]
  show (if e = Err.eof then some (Err.other "unexpected EOF") else some e) = some e
  rw [if_neg hne]

/-- Witness for the amended C5: a concrete broadcast in which channel
2's SendAs fails with `boom` makes the relay return that failure and
`Close` return exactly it. -/
theorem c5_fatal_fanout_witness :
    (relay envFailBoom b5 1 (Event.message m1)).2 = Except.error (Err.other "boom") ∧
    bridgeCloseResult
        (muxStep envFailBoom (initialMux b5) (MuxInput.ev 1 (Event.message m1))).1
      = some (Err.other "boom") := by
  have h := c5_fatal_fanout envFailBoom b5 1 m1 2 (Err.other "boom")
    (fun c => asCopy m1 c)
    (by rw [show allChannelsExcept b5 1 = [2] from rfl]; exact List.mem_singleton.mpr rfl)
    rfl
    (by intro c hcm hne
        rw [show allChannelsExcept b5 1 = [2] from rfl] at hcm
        exact absurd (List.mem_singleton.mp hcm) hne)
    (by simp)
    (initialMux b5) rfl rfl []
  exact ⟨h.1, h.2.2.2⟩

theorem editMessage_trace_eq (env : Env) (l : List ChannelId)
    (fm : ChannelId → Option ChatMessage) (text : String) :
    (editMessage env l fm text).1
      = (l.filterMap fun ch => (fm ch).map fun m => (ch, m)).map
          (fun a => (a.1, Call.edit a.2.id text)) := rfl

theorem deleteMessage_trace_eq (env : Env) (l : List ChannelId)
    (fm : ChannelId → Option ChatMessage) :
    (deleteMessage env l fm).1
      = (l.filterMap fun ch => (fm ch).map fun m => (ch, m)).map
          (fun a => (a.1, Call.delete a.2.id)) := rfl

theorem editMessage_noop (env : Env) (l : List ChannelId)
    (fm : ChannelId → Option ChatMessage) (text : String) (h : ∀ c ∈ l, fm c = none) :
    editMessage env l fm text = ([], Except.ok ()) := by
  unfold editMessage
  have hacts : l.filterMap (fun ch => (fm ch).map (fun m => (ch, m))) = [] := by
    rw [List.filterMap_eq_nil_iff]
    intro a ha
    rw [h a ha]
    rfl
  rw [hacts]
  rfl

theorem deleteMessage_noop (env : Env) (l : List ChannelId)
    (fm : ChannelId → Option ChatMessage) (h : ∀ c ∈ l, fm c = none) :
    deleteMessage env l fm = ([], Except.ok ()) := by
  unfold deleteMessage
  have hacts : l.filterMap (fun ch => (fm ch).map (fun m => (ch, m))) = [] := by
    rw [List.filterMap_eq_nil_iff]
    intro a ha
    rw [h a ha]
    rfl
  rw [hacts]
  rfl

/-- Claim C6: a relayed Edit or Delete whose id resolves no log entry
performs zero backend calls and returns success; a target channel for
which the resolved entry has no copy gets no call, while targets with
a copy do get theirs. -/
theorem c6_edit_delete_noop_on_miss (env : Env) (b : BridgeState) (o : ChannelId)
    (id newID text : String) :
    (findEntry b.log o id = none →
      relay env b o (Event.edit id newID text) = ([], Except.ok b) ∧
      relay env b o (Event.delete id) = ([], Except.ok b)) ∧
    (∀ c, makeFindMessage b o id c = none →
      (∀ p ∈ (relay env b o (Event.edit id newID text)).1, p.1 ≠ c) ∧
      (∀ p ∈ (relay env b o (Event.delete id)).1, p.1 ≠ c)) ∧
    (∀ c cp, c ∈ allChannelsExcept b o → makeFindMessage b o id c = some cp →
      (c, Call.edit cp.id text) ∈ (relay env b o (Event.edit id newID text)).1 ∧
      (c, Call.delete cp.id) ∈ (relay env b o (Event.delete id)).1) := by
  refine ⟨?_, ?_, ?_⟩
  · intro hnone
    have hfm : ∀ c ∈ allChannelsExcept b o, makeFindMessage b o id c = none := by
      intro c _
      simp [makeFindMessage, hnone]
    constructor
    · rw [relay_edit_eq,
        editMessage_noop env (allChannelsExcept b o) (makeFindMessage b o id) text hfm]
      rfl
    · rw [relay_delete_eq,
        deleteMessage_noop env (allChannelsExcept b o) (makeFindMessage b o id) hfm]
      rfl
  · intro c hc
    constructor
    · intro p hp
      have hp2 : p ∈ (editMessage env (allChannelsExcept b o) (makeFindMessage b o id) text).1 := by
        rw [relay_edit_eq] at hp
        exact hp
      rw [editMessage_trace_eq] at hp2
      rcases List.mem_map.mp hp2 with ⟨a, ha, rfl⟩
      rcases List.mem_filterMap.mp ha with ⟨ch, _, hcheq⟩
      rcases hm : makeFindMessage b o id ch with _ | m
      · rw [hm] at hcheq
        cases hcheq
      · rw [hm] at hcheq
        have hcheq2 : some (ch, m) = some a := hcheq
        injection hcheq2 with hcheq3
        subst hcheq3
        intro hac
        have hac2 : ch = c := hac
        rw [hac2] at hm
        rw [hm] at hc
        cases hc
    · intro p hp
      have hp2 : p ∈ (deleteMessage env (allChannelsExcept b o) (makeFindMessage b o id)).1 := by
        rw [relay_delete_eq] at hp
        exact hp
      rw [deleteMessage_trace_eq] at hp2
      rcases List.mem_map.mp hp2 with ⟨a, ha, rfl⟩
      rcases List.mem_filterMap.mp ha with ⟨ch, _, hcheq⟩
      rcases hm : makeFindMessage b o id ch with _ | m
      · rw [hm] at hcheq
        cases hcheq
      · rw [hm] at hcheq
        have hcheq2 : some (ch, m) = some a := hcheq
        injection hcheq2 with hcheq3
        subst hcheq3
        intro hac
        have hac2 : ch = c := hac
        rw [hac2] at hm
        rw [hm] at hc
        cases hc
  · intro c cp hcl hcp
    constructor
    · rw [relay_edit_eq]
      show (c, Call.edit cp.id text)
        ∈ (editMessage env (allChannelsExcept b o) (makeFindMessage b o id) text).1
      rw [editMessage_trace_eq]
      exact List.mem_map.mpr ⟨(c, cp),
        List.mem_filterMap.mpr ⟨c, hcl, by rw [hcp]; rfl⟩, rfl⟩
    · rw [relay_delete_eq]
      show (c, Call.delete cp.id)
        ∈ (deleteMessage env (allChannelsExcept b o) (makeFindMessage b o id)).1
      rw [deleteMessage_trace_eq]
      exact List.mem_map.mpr ⟨(c, cp),
        List.mem_filterMap.mpr ⟨c, hcl, by rw [hcp]; rfl⟩, rfl⟩

/-- Witness for C6: an Edit and a Delete for an unknown id on the
four-channel bridge perform zero backend calls and succeed. -/
theorem c6_edit_delete_noop_on_miss_witness :
    relay envOK b2 1 (Event.edit "nope" "nope" "t") = ([], Except.ok b2) ∧
    relay envOK b2 1 (Event.delete "nope") = ([], Except.ok b2) :=
  (c6_edit_delete_noop_on_miss envOK b2 1 "nope" "nope" "t").1 rfl

theorem bridgeSend_eq (env : Env) (b : BridgeState) (t : String) :
    bridgeSend env b t
      = (match (sendMessage env b.channels none none t).2 with
         | Except.error e => ((sendMessage env b.channels none none t).1, Except.error e)
         | Except.ok msgs =>
           ((sendMessage env b.channels none none t).1,
            Except.ok ({ id := Int.repr b.nextID, fromUser := meUser, text := t },
              logMessage { b with nextID := wrap64 (b.nextID + 1) }
                ⟨b.self, msgs
                  ++ [⟨b.self, { id := Int.repr b.nextID, fromUser := meUser, text := t }⟩]⟩))) := rfl

theorem bridgeSendAs_eq (env : Env) (b : BridgeState) (u : ChatUser) (t : String) :
    bridgeSendAs env b u t
      = (match (sendMessage env b.channels (some u) none t).2 with
         | Except.error e => ((sendMessage env b.channels (some u) none t).1, Except.error e)
         | Except.ok msgs =>
           ((sendMessage env b.channels (some u) none t).1,
            Except.ok ({ id := Int.repr b.nextID, fromUser := meUser, text := t },
              logMessage { b with nextID := wrap64 (b.nextID + 1) }
                ⟨b.self, msgs
                  ++ [⟨b.self, { id := Int.repr b.nextID, fromUser := meUser, text := t }⟩]⟩))) := rfl

theorem bridgeReply_eq (env : Env) (b : BridgeState) (r : ChatMessage) (t : String) :
    bridgeReply env b r t
      = (match (sendMessage env b.channels none (some (makeFindMessage b b.self r.id)) t).2 with
         | Except.error e =>
           ((sendMessage env b.channels none (some (makeFindMessage b b.self r.id)) t).1,
            Except.error e)
         | Except.ok msgs =>
           ((sendMessage env b.channels none (some (makeFindMessage b b.self r.id)) t).1,
            Except.ok ({ id := Int.repr b.nextID, fromUser := meUser, text := t },
              logMessage { b with nextID := wrap64 (b.nextID + 1) }
                ⟨b.self, msgs
                  ++ [⟨b.self, { id := Int.repr b.nextID, fromUser := meUser, text := t }⟩]⟩))) := rfl

theorem bridgeReplyAs_eq (env : Env) (b : BridgeState) (u : ChatUser) (r : ChatMessage)
    (t : String) :
    bridgeReplyAs env b u r t
      = (match (sendMessage env b.channels (some u)
            (some (makeFindMessage b b.self r.id)) t).2 with
         | Except.error e =>
           ((sendMessage env b.channels (some u) (some (makeFindMessage b b.self r.id)) t).1,
            Except.error e)
         | Except.ok msgs =>
           ((sendMessage env b.channels (some u) (some (makeFindMessage b b.self r.id)) t).1,
            Except.ok ({ id := Int.repr b.nextID, fromUser := meUser, text := t },
              logMessage { b with nextID := wrap64 (b.nextID + 1) }
                ⟨b.self, msgs
                  ++ [⟨b.self, { id := Int.repr b.nextID, fromUser := meUser, text := t }⟩]⟩))) := rfl

theorem bridgeDirect_ok (env : Env) (b : BridgeState) (c : DirectCall)
    (mb : ChatMessage × BridgeState) (h : (bridgeDirect env b c).2 = Except.ok mb) :
    mb.1.id = Int.repr b.nextID ∧ mb.2.nextID = wrap64 (b.nextID + 1) := by
  cases c with
  | send t =>
    rw [show bridgeDirect env b (DirectCall.send t) = bridgeSend env b t from rfl,
      bridgeSend_eq] at h
    rcases hr : (sendMessage env b.channels none none t).2 with e | msgs
    · rw [hr] at h
      cases h
    · rw [hr] at h
      injection h with h3
      subst h3
      exact ⟨rfl, rfl⟩
  | sendAs u t =>
    rw [show bridgeDirect env b (DirectCall.sendAs u t) = bridgeSendAs env b u t from rfl,
      bridgeSendAs_eq] at h
    rcases hr : (sendMessage env b.channels (some u) none t).2 with e | msgs
    · rw [hr] at h
      cases h
    · rw [hr] at h
      injection h with h3
      subst h3
      exact ⟨rfl, rfl⟩
  | reply r t =>
    rw [show bridgeDirect env b (DirectCall.reply r t) = bridgeReply env b r t from rfl,
      bridgeReply_eq] at h
    rcases hr : (sendMessage env b.channels none
        (some (makeFindMessage b b.self r.id)) t).2 with e | msgs
    · rw [hr] at h
      cases h
    · rw [hr] at h
      injection h with h3
      subst h3
      exact ⟨rfl, rfl⟩
  | replyAs u r t =>
    rw [show bridgeDirect env b (DirectCall.replyAs u r t) = bridgeReplyAs env b u r t
      from rfl, bridgeReplyAs_eq] at h
    rcases hr : (sendMessage env b.channels (some u)
        (some (makeFindMessage b b.self r.id)) t).2 with e | msgs
    · rw [hr] at h
      cases h
    · rw [hr] at h
      injection h with h3
      subst h3
      exact ⟨rfl, rfl⟩

theorem runDirect_cons (env : Env) (b : BridgeState) (c : DirectCall)
    (rest : List DirectCall) :
    runDirect env b (c :: rest)
      = (match (bridgeDirect env b c).2 with
         | Except.error _ => runDirect env b rest
         | Except.ok mb =>
           (mb.1.id :: (runDirect env mb.2 rest).1, (runDirect env mb.2 rest).2)) := rfl

theorem wrap64_eq_of_bounds (n : Int) (h1 : -(2 ^ 63) ≤ n) (h2 : n < 2 ^ 63) :
    wrap64 n = n := by
  unfold wrap64
  have hp : (2 : Int) ^ 64 = 2 ^ 63 * 2 := by norm_num
  have h3 : 0 ≤ n + 2 ^ 63 := by omega
  have h4 : n + 2 ^ 63 < 2 ^ 64 := by omega
  rw [Int.emod_eq_of_lt h3 h4]
  omega

theorem intRepr_nonneg (n : Int) (h : 0 ≤ n) : Int.repr n = Nat.repr n.toNat := by
  cases n with
  | ofNat m => rfl
  | negSucc m => exact absurd h (not_le.mpr (Int.negSucc_lt_zero m))

theorem runDirect_ids (env : Env) : ∀ (calls : List DirectCall) (b : BridgeState),
    0 ≤ b.nextID → b.nextID + calls.length ≤ 2 ^ 63 →
    ∃ k, k ≤ calls.length ∧
      (runDirect env b calls).1 = (List.range' b.nextID.toNat k).map Nat.repr := by
  intro calls
  induction calls with
  | nil =>
    intro b h0 hlen
    exact ⟨0, Nat.le_refl 0, rfl⟩
  | cons c rest ih =>
    intro b h0 hlen
    have hlenr : ((c :: rest).length : Int) = (rest.length : Int) + 1 := by
      push_cast [List.length_cons]
      ring
    rcases hr : (bridgeDirect env b c).2 with e | mb
    · have hlen2 : b.nextID + rest.length ≤ 2 ^ 63 := by omega
      obtain ⟨k, hk, heq⟩ := ih b h0 hlen2
      refine ⟨k, Nat.le_succ_of_le hk, ?_⟩
      rw [runDirect_cons, hr]
      exact heq
    · obtain ⟨hid, hnext⟩ := bridgeDirect_ok env b c mb hr
      by_cases hre : rest.length = 0
      · have hrnil : rest = [] := List.length_eq_zero.mp hre
        subst hrnil
        refine ⟨1, Nat.le_refl 1, ?_⟩
        rw [runDirect_cons, hr]
        show mb.1.id :: (runDirect env mb.2 []).1 = (List.range' b.nextID.toNat 1).map Nat.repr
        rw [show (runDirect env mb.2 []).1 = [] from rfl, hid, intRepr_nonneg b.nextID h0]
        rfl
      · have hb1 : b.nextID + 1 < 2 ^ 63 := by
          have hr1 : (1 : Int) ≤ (rest.length : Int) := by
            exact_mod_cast Nat.one_le_iff_ne_zero.mpr hre
          omega
        have hnext2 : mb.2.nextID = b.nextID + 1 := by
          rw [hnext, wrap64_eq_of_bounds] <;> omega
        obtain ⟨k, hk, heq⟩ := ih mb.2 (by omega) (by rw [hnext2]; omega)
        refine ⟨k + 1, by rw [List.length_cons]; omega, ?_⟩
        rw [runDirect_cons, hr]
        show mb.1.id :: (runDirect env mb.2 rest).1 = _
        rw [heq, hid, intRepr_nonneg b.nextID h0]
        have htn : mb.2.nextID.toNat = b.nextID.toNat + 1 := by
          rw [hnext2]
          omega
        rw [htn, List.range'_succ]
        rfl

theorem pairwise_lt_range1 : ∀ s n : Nat, List.Pairwise (· < ·) (List.range' s n)
  | _, 0 => by simp
  | s, n + 1 => by
    rw [List.range'_succ]
    exact List.chain_iff_pairwise.mp (List.chain_lt_range' s n (by omega))

/-- Claim C7: over any mixed sequence of direct Send, SendAs, Reply
and ReplyAs calls on a fresh Bridge whose length stays within the
64-bit counter's non-negative range (so the wrapping `int` does not
overflow), the identifiers of the successful calls are the decimal
strings of consecutive integers from the base value 0 — numerically
strictly increasing in completion order and pairwise distinct.  (The
lock in `nextID` serialises concurrent increments; the model runs the
serialised sequence.) -/
theorem c7_monotonic_local_ids (env : Env) (self : ChannelId) (chans : List ChannelId)
    (calls : List DirectCall) (hlen : (calls.length : Int) ≤ 2 ^ 63) :
    (runDirect env (newBridge self chans) calls).1
        = (List.range' 0 (runDirect env (newBridge self chans) calls).1.length).map
            Nat.repr ∧
    (List.range' 0 (runDirect env (newBridge self chans) calls).1.length).Pairwise
        (· < ·) ∧
    (runDirect env (newBridge self chans) calls).1.Nodup := by
  obtain ⟨k, hk, heq⟩ := runDirect_ids env calls (newBridge self chans)
    (le_refl 0)
    (by show (0 : Int) + (calls.length : Int) ≤ 2 ^ 63
        omega)
  have hlength : (runDirect env (newBridge self chans) calls).1.length = k := by
    rw [heq, List.length_map, List.length_range']
  refine ⟨?_, ?_, ?_⟩
  · rw [hlength]
    exact heq
  · rw [hlength]
    exact pairwise_lt_range1 0 k
  · rw [heq]
    exact List.Nodup.map natRepr_injective
      ((pairwise_lt_range1 0 _).imp (fun h => Nat.ne_of_lt h))

/-- Witness for C7: the mixed sequence `calls4` (Send, SendAs, Reply,
ReplyAs) on a fresh two-channel bridge issues ids that are the decimal
strings of 0,1,2,3, with no duplicates. -/
theorem c7_monotonic_local_ids_witness :
    (runDirect envOK (newBridge 9 [1, 2]) calls4).1
        = (List.range' 0 (runDirect envOK (newBridge 9 [1, 2]) calls4).1.length).map
            Nat.repr ∧
    (runDirect envOK (newBridge 9 [1, 2]) calls4).1.Nodup := by
  have h := c7_monotonic_local_ids envOK 9 [1, 2] calls4 (by norm_num [calls4])
  exact ⟨h.1, h.2.2⟩

/-- Claim C8 (code bug): a Telegram membership-leave update that
passes every discard rule (sent after channel creation, with a `From`
user) reaches the `LeftChatMember` case, which passes
`msg.NewChatMember` — nil whenever that case is reached — to
`chatUser`, a nil-pointer dereference instead of a Leave event
identifying `tBob`, the user who left. -/
theorem c8_leave_nil_dereference :
    chatEvent 5 (fun _ => "") none leaveUpdate = Except.error () ∧
    (TelMessage.mk 7 10 (some tAlice) none none (some tBob) none none none).leftChatMember
      = some tBob ∧
    (TelMessage.mk 7 10 (some tAlice) none none (some tBob) none none none).newChatMember
      = none := ⟨rfl, rfl, rfl⟩

theorem pollRun_cons (r : Except Err Event) (rest : List (Except Err Event)) :
    pollRun (r :: rest)
      = (match pollStep r with
         | PollAction.exitSilent => ([], some none)
         | PollAction.report e => ([], some (some e))
         | PollAction.publish w => (w :: (pollRun rest).1, (pollRun rest).2)) := rfl

/-- Claim C9: a poller that receives a cancellation or deadline error
exits silently, publishing nothing and reporting nothing; any other
receive error makes it exit reporting that error; and the report is
the non-blocking first-reporter-wins register — a first report is
retained, later reports are dropped. -/
theorem c9_poll_error_policy (e : Err) (rest : List (Except Err Event))
    (h1 : e ≠ Err.canceled) (h2 : e ≠ Err.deadlineExceeded) :
    pollRun (Except.error Err.canceled :: rest) = ([], some none) ∧
    pollRun (Except.error Err.deadlineExceeded :: rest) = ([], some none) ∧
    pollRun (Except.error e :: rest) = ([], some (some e)) ∧
    reportFirst none e = some e ∧
    (∀ e0, reportFirst (some e0) e = some e0) := by
  refine ⟨rfl, rfl, ?_, rfl, fun e0 => rfl⟩
  have hstep : pollStep (Except.error e) = PollAction.report e := by
    show (if e = Err.canceled ∨ e = Err.deadlineExceeded then PollAction.exitSilent
      else PollAction.report e) = PollAction.report e
    rw [if_neg]
    rintro (h | h)
    · exact h1 h
    · exact h2 h
  rw [pollRun_cons, hstep]

/-- Witness for C9: a poller hitting a non-context error exits
reporting it, and the register keeps the first error. -/
theorem c9_poll_error_policy_witness :
    pollRun [Except.error (Err.other "x")] = ([], some (some (Err.other "x"))) ∧
    reportFirst (some (Err.other "x")) (Err.other "y") = some (Err.other "x") := by
  have h := c9_poll_error_policy (Err.other "x") [] (by simp) (by simp)
  refine ⟨h.2.2.1, ?_⟩
  have h2 := c9_poll_error_policy (Err.other "y") [] (by simp) (by simp)
  exact h2.2.2.2.2 (Err.other "x")

/-- Claim C10: a bridged channel's Receive returning `io.EOF` is
classified by `poll` as a reportable (fatal) error, not a silent exit;
`Close` rewrites a terminal `io.EOF` to the distinct error
`unexpected EOF`, never returns `io.EOF` itself, and returns `nil`
after a clean close. -/
theorem c10_eof_fatal_and_rewritten (env : Env) (b : BridgeState) :
    pollStep (Except.error Err.eof) = PollAction.report Err.eof ∧
    closeReturn (some Err.eof) = some (Err.other "unexpected EOF") ∧
    closeReturn none = none ∧
    (∀ t, isEOFErr (closeReturn t) = false) ∧
    bridgeCloseResult (muxRun env (initialMux b) [MuxInput.closeReq]).1 = none := by
  refine ⟨rfl, rfl, rfl, ?_, rfl⟩
  intro t
  match t with
  | none => rfl
  | some Err.eof => rfl
  | some Err.canceled => rfl
  | some Err.deadlineExceeded => rfl
  | some (Err.other s) => rfl

theorem wrap64_bounds (x : Int) : -(2 ^ 63) ≤ wrap64 x ∧ wrap64 x < 2 ^ 63 := by
  unfold wrap64
  have hp : (2 : Int) ^ 64 = 2 ^ 63 * 2 := by norm_num
  have h1 : 0 ≤ (x + 2 ^ 63) % 2 ^ 64 := Int.emod_nonneg _ (by norm_num)
  have h2 : (x + 2 ^ 63) % 2 ^ 64 < 2 ^ 64 := Int.emod_lt_of_pos _ (by norm_num)
  constructor <;> omega

theorem wrap64_wrap64 (x : Int) : wrap64 (wrap64 x) = wrap64 x :=
  wrap64_eq_of_bounds _ (wrap64_bounds x).1 (wrap64_bounds x).2

theorem wrap64_add_left (x y : Int) : wrap64 (wrap64 x + y) = wrap64 (x + y) := by
  unfold wrap64
  have h1 : (x + 2 ^ 63) % 2 ^ 64 - 2 ^ 63 + y + 2 ^ 63 = (x + 2 ^ 63) % 2 ^ 64 + y := by
    ring
  rw [h1, Int.emod_add_emod]
  have h2 : x + 2 ^ 63 + y = x + y + 2 ^ 63 := by ring
  rw [h2]

theorem runDirect_replicate_send (env : Env) (t : String) :
    ∀ (n : Nat) (b : BridgeState), b.channels = [] → wrap64 b.nextID = b.nextID →
    (runDirect env b (List.replicate n (DirectCall.send t))).1
      = (List.range n).map (fun k : Nat => Int.repr (wrap64 (b.nextID + (k : Int)))) := by
  intro n
  induction n with
  | zero => intro b _ _; rfl
  | succ n ih =>
    intro b hch hin
    rw [List.replicate_succ, runDirect_cons,
      show bridgeDirect env b (DirectCall.send t) = bridgeSend env b t from rfl,
      bridgeSend_eq]
    have hsm : (sendMessage env b.channels none none t).2 = Except.ok [] := by
      rw [hch]
      rfl
    rw [hsm]
    show Int.repr b.nextID :: (runDirect env
        (logMessage { b with nextID := wrap64 (b.nextID + 1) }
          ⟨b.self,
           [] ++ [⟨b.self, { id := Int.repr b.nextID, fromUser := meUser, text := t }⟩]⟩)
        (List.replicate n (DirectCall.send t))).1 = _
    rw [ih _ (by exact hch) (by exact wrap64_wrap64 (b.nextID + 1))]
    rw [List.range_succ_eq_map, List.map_cons, List.map_map]
    congr 1
    · show Int.repr b.nextID = Int.repr (wrap64 (b.nextID + ((0 : Nat) : Int)))
      have hz : b.nextID + ((0 : Nat) : Int) = b.nextID := by
        push_cast
        omega
      rw [hz, hin]
    · apply List.map_congr_left
      intro k _
      show Int.repr (wrap64 (wrap64 (b.nextID + 1) + k))
        = Int.repr (wrap64 (b.nextID + ((k + 1 : Nat) : Int)))
      rw [wrap64_add_left]
      have hc : b.nextID + 1 + (k : Int) = b.nextID + ((k + 1 : Nat) : Int) := by
        push_cast
        omega
      rw [hc]

/-- Counterexample for C7 as stated over unboundedly long call
sequences: on a bridge over zero channels (every broadcast trivially
succeeds) the `2 ^ 63 + 1`-st successful direct Send wraps the 64-bit
counter, so its identifier's numeric value `-(2 ^ 63)` is smaller than
its predecessor's `2 ^ 63 - 1` — the issued identifiers are not
strictly increasing. -/
theorem c7_wrap_counterexample :
    (runDirect envOK (newBridge 9 []) bigCalls).1[2 ^ 63 - 1]?
        = some (Int.repr (2 ^ 63 - 1)) ∧
    (runDirect envOK (newBridge 9 []) bigCalls).1[2 ^ 63]?
        = some (Int.repr (-(2 ^ 63))) ∧
    (-(2 ^ 63) : Int) < 2 ^ 63 - 1 := by
  have h : (runDirect envOK (newBridge 9 []) bigCalls).1
      = (List.range (2 ^ 63 + 1)).map
          (fun k : Nat => Int.repr (wrap64 ((0 : Int) + (k : Int)))) :=
    runDirect_replicate_send envOK "t" (2 ^ 63 + 1) (newBridge 9 []) rfl
      (by show wrap64 (0 : Int) = (0 : Int)
          unfold wrap64
          rw [show ((0 : Int) + 2 ^ 63) = 2 ^ 63 by norm_num,
            Int.emod_eq_of_lt (by norm_num) (by norm_num)]
          norm_num)
  have hv1 : wrap64 ((0 : Int) + ((2 ^ 63 - 1 : Nat) : Int)) = 2 ^ 63 - 1 := by
    have hc : (0 : Int) + ((2 ^ 63 - 1 : Nat) : Int) = 2 ^ 63 - 1 := by
      push_cast
    rw [hc]
    exact wrap64_eq_of_bounds _ (by norm_num) (by norm_num)
  have hv2 : wrap64 ((0 : Int) + ((2 ^ 63 : Nat) : Int)) = -(2 ^ 63) := by
    have hc : (0 : Int) + ((2 ^ 63 : Nat) : Int) = 2 ^ 63 := by
      push_cast
    rw [hc]
    unfold wrap64
    have hs : (2 : Int) ^ 63 + 2 ^ 63 = 2 ^ 64 := by norm_num
    rw [hs, Int.emod_self]
    norm_num
  refine ⟨?_, ?_, by norm_num⟩
  · rw [h, List.getElem?_map, List.getElem?_range (by norm_num)]
    show some (Int.repr (wrap64 ((0 : Int) + ((2 ^ 63 - 1 : Nat) : Int))))
      = some (Int.repr ((2 : Int) ^ 63 - 1))
    rw [hv1]
  · rw [h, List.getElem?_map, List.getElem?_range (by norm_num)]
    show some (Int.repr (wrap64 ((0 : Int) + ((2 ^ 63 : Nat) : Int))))
      = some (Int.repr (-((2 : Int) ^ 63)))
    rw [hv2]
